import Mathlib

/-!
Verification of the middleware core of GoWebUtilities.

The Go source defines `Middleware func(h http.Handler) http.Handler` and four
constructions on it: `CreateStack`, `NewLoggingMiddleware`, `NewMaxBytesReader`
and `NewSetContentType` / `NewSetContentTypeJSON`.  We embed the handler layer
shallowly: handler programs are a deep syntax of the `http.ResponseWriter` /
`r.Body` operations they may perform, interpreted into a state function, and
each middleware constructor is translated directly from its Go body.
-/

set_option maxHeartbeats 1000000

/-- `Middleware func(h http.Handler) http.Handler`.  The composition logic in
the source never inspects the handler, so we keep the handler type abstract
and instantiate it with the concrete `Handler` below. -/
def Middleware (H : Type) : Type := H → H

/-- `CreateStack` from the source: iterate the unit slice from the last index
down to index 0, successively rebinding `next = xs[i](next)`; the downward
loop is exactly a right fold of application over the list. -/
def CreateStack {H : Type} (xs : List (Middleware H)) : Middleware H :=
  fun next => xs.foldr (fun x acc => x acc) next

/-! ## The concrete handler layer

`http.ResponseWriter` values reaching a handler are either the server's own
writer (modelled as a recorder of status/body/headers, with net/http's
first-`WriteHeader`-wins and implicit-200-on-first-write wire behaviour) or
the logging middleware's `wrappedWriter` around it. -/

/-- The headers map (`http.Header`), as an association list; `Set` replaces. -/
def setAssoc (hs : List (String × String)) (key value : String) :
    List (String × String) :=
  (key, value) :: hs.filter (fun kv => kv.1 ≠ key)

/-- The server's own `http.ResponseWriter` (external to the repo): records the
wire status, the body bytes and the header map.  A second `WriteHeader` is
superfluous and ignored on the wire; a `Write` before any `WriteHeader`
commits an implicit 200. -/
structure ResponseRecorder where
  wroteHeader : Bool
  status : Nat
  body : List Nat
  headers : List (String × String)
deriving Repr, DecidableEq

def ResponseRecorder.writeHeader (w : ResponseRecorder) (statusCode : Nat) :
    ResponseRecorder :=
  if w.wroteHeader then w
  else { w with wroteHeader := true, status := statusCode }

def ResponseRecorder.write (w : ResponseRecorder) (b : List Nat) :
    ResponseRecorder :=
  let w := if w.wroteHeader then w
           else { w with wroteHeader := true, status := 200 }
  { w with body := w.body ++ b }

def ResponseRecorder.setHeader (w : ResponseRecorder) (key value : String) :
    ResponseRecorder :=
  { w with headers := setAssoc w.headers key value }

/-- A writer chain: the base recorder, possibly wrapped by `wrappedWriter`
layers (`http.ResponseWriter` embedded struct plus the `statusCode` field,
zero-initialised). -/
inductive RespWriter where
  | base (rec : ResponseRecorder)
  | wrapped (inner : RespWriter) (statusCode : Nat)
deriving Repr, DecidableEq

/-- `wrappedWriter.WriteHeader`: record the status code, then forward to the
embedded writer.  On the base layer this is the recorder's `WriteHeader`. -/
def RespWriter.writeHeader : RespWriter → Nat → RespWriter
  | .base rec, statusCode => .base (rec.writeHeader statusCode)
  | .wrapped inner _, statusCode => .wrapped (inner.writeHeader statusCode) statusCode

/-- `wrappedWriter.Write`: if no status was recorded yet, record
`http.StatusOK`; then forward the bytes to the embedded writer. -/
def RespWriter.write : RespWriter → List Nat → RespWriter
  | .base rec, b => .base (rec.write b)
  | .wrapped inner statusCode, b =>
      .wrapped (inner.write b) (if statusCode = 0 then 200 else statusCode)

/-- `w.Header().Set(key, value)`: the header map lives on the base writer;
`wrappedWriter` only embeds, so the call forwards all the way down. -/
def RespWriter.setHeader : RespWriter → String → String → RespWriter
  | .base rec, key, value => .base (rec.setHeader key value)
  | .wrapped inner statusCode, key, value =>
      .wrapped (inner.setHeader key value) statusCode

/-- The `statusCode` field of the top `wrappedWriter` layer (0 on a bare
base writer, which the logging middleware never reads). -/
def RespWriter.capturedStatus : RespWriter → Nat
  | .base _ => 0
  | .wrapped _ statusCode => statusCode

/-- Discard the top `wrappedWriter` layer once its request is over. -/
def RespWriter.unwrap : RespWriter → RespWriter
  | .base rec => .base rec
  | .wrapped inner _ => inner

/-- The base recorder at the bottom of a writer chain. -/
def RespWriter.recorder : RespWriter → ResponseRecorder
  | .base rec => rec
  | .wrapped inner _ => inner.recorder

/-! ### Request bodies and `http.MaxBytesReader` -/

/-- Errors an `io.Reader` in this model can return: `io.EOF` or
`http.MaxBytesError`. -/
inductive ReadErr where
  | eof
  | tooLarge
deriving Repr, DecidableEq

/-- `r.Body`: either the raw inbound byte stream or a `maxBytesReader`
around another body.  `remaining` is the reader's `l.n` (an `int64`) and
`stickyErr` its `l.err`. -/
inductive Body where
  | raw (bytes : List Nat)
  | limited (inner : Body) (remaining : Int) (stickyErr : Option ReadErr)

/-- One `Read` call asking for `p` bytes.  On a raw stream this is
`bytes.Reader`: an empty stream answers `io.EOF`, otherwise up to `p` bytes
are consumed.  On a `maxBytesReader` it is the stdlib `Read`: a sticky error
repeats; the request is trimmed to `l.n + 1` bytes; a result within the
remaining allowance passes through (decrementing `l.n` and latching the
inner error), and a result beyond it is truncated to the allowance and
answered with the body-too-large error, latched from then on. -/
def Body.read : Body → Nat → Body × List Nat × Option ReadErr
  | .raw bytes, p =>
      if p = 0 then (.raw bytes, [], none)
      else if bytes.isEmpty then (.raw bytes, [], some .eof)
      else (.raw (bytes.drop p), bytes.take p, none)
  | .limited inner n sticky, p =>
      match sticky with
      | some e => (.limited inner n sticky, [], some e)
      | none =>
        if p = 0 then (.limited inner n none, [], none)
        else
          let p' := if (p : Int) - 1 > n then (n + 1).toNat else p
          match inner.read p' with
          | (inner', bs, err) =>
            if (bs.length : Int) ≤ n then
              (.limited inner' (n - bs.length) err, bs, err)
            else
              (.limited inner' 0 (some .tooLarge), bs.take n.toNat, some .tooLarge)

/-- `http.MaxBytesReader(w, r.Body, n)` (stdlib): clamp a negative limit to 0
and install the wrapping reader. -/
def MaxBytesReader (r : Body) (n : Int) : Body :=
  .limited r (if n < 0 then 0 else n) none

/-! ### Handler programs and their interpretation

A handler body is the sequence of operations it performs on the response
writer and the request body, with the result of each `Read` fed to a
continuation (so later behaviour may depend on bytes read or on a read
error), and `abort` for a Go `panic`. -/

inductive HandlerProg where
  | done : HandlerProg
  | writeHeader : Nat → HandlerProg → HandlerProg
  | write : List Nat → HandlerProg → HandlerProg
  | setHeader : String → String → HandlerProg → HandlerProg
  | readBody : Nat → (List Nat × Option ReadErr → HandlerProg) → HandlerProg
  | abort : HandlerProg

/-- Structured log records emitted through the injected `slog.Logger`. -/
inductive Level where
  | debug
  | info
deriving Repr, DecidableEq

structure LogRecord where
  level : Level
  msg : String
  method : String
  path : String
  status : Option Nat
  duration : Option Nat
deriving Repr, DecidableEq

/-- The per-request response-side state a handler invocation acts on: the
writer chain, the log stream of the injected logger, and a wall clock
(advanced one tick per handler operation, so elapsed time is observable). -/
structure Conn where
  writer : RespWriter
  logs : List LogRecord
  clock : Nat
deriving Repr, DecidableEq

/-- Run a handler program against a request body and a connection.  A normal
return yields the final body and connection; `abort` escapes with the
connection as it stood at the panic (`Except.error`), modelling that a panic
unwinds past all middleware while side effects already performed remain. -/
def serveProg : HandlerProg → Body → Conn → Except Conn (Body × Conn)
  | .done, body, conn => .ok (body, conn)
  | .writeHeader statusCode k, body, conn =>
      serveProg k body
        { conn with writer := conn.writer.writeHeader statusCode,
                    clock := conn.clock + 1 }
  | .write b k, body, conn =>
      serveProg k body
        { conn with writer := conn.writer.write b, clock := conn.clock + 1 }
  | .setHeader key value k, body, conn =>
      serveProg k body
        { conn with writer := conn.writer.setHeader key value,
                    clock := conn.clock + 1 }
  | .readBody p k, body, conn =>
      match body.read p with
      | (body', bs, err) =>
          serveProg (k (bs, err)) body' { conn with clock := conn.clock + 1 }
  | .abort, _, conn => .error conn

/-- `http.Handler`: serve a request (method, path, body) against a
connection. -/
structure Request where
  method : String
  path : String
  body : Body

def Handler : Type := Request → Conn → Except Conn Conn

/-- The handler induced by a program-valued function of the request: run the
program on the request's body and drop the final body state (the request
ends with the response). -/
def progHandler (f : Request → HandlerProg) : Handler :=
  fun r conn => (serveProg (f r) r.body conn).map (fun p => p.2)

/-! ## The three concrete middleware constructors, translated from source -/

/-- `NewSetContentType`: set the `Content-Type` header on the outgoing
response, then delegate to the inner handler. -/
def NewSetContentType (contentType : String) : Middleware Handler :=
  fun next => fun r conn =>
    next r { conn with writer := conn.writer.setHeader "Content-Type" contentType }

/-- `NewSetContentTypeJSON`: `NewSetContentType("application/json")`. -/
def NewSetContentTypeJSON : Middleware Handler :=
  NewSetContentType "application/json"

/-- `NewMaxBytesReader`: substitute the 1MB default for a zero limit, then
per request install `http.MaxBytesReader` around `r.Body` and delegate. -/
def NewMaxBytesReader (maxBytes : Int) : Middleware Handler :=
  let maxBytes := if maxBytes = 0 then 1048576 else maxBytes
  fun next => fun r conn =>
    next { r with body := MaxBytesReader r.body maxBytes } conn

/-- The two records `NewLoggingMiddleware` emits. -/
def debugRecord (r : Request) : LogRecord :=
  { level := .debug, msg := "handling request", method := r.method,
    path := r.path, status := none, duration := none }

def infoRecord (r : Request) (status duration : Nat) : LogRecord :=
  { level := .info, msg := "request complete", method := r.method,
    path := r.path, status := some status, duration := some duration }

/-- `NewLoggingMiddleware`: note the start time, allocate a fresh
`wrappedWriter` (statusCode 0) over the caller's writer, emit the debug
record, delegate to the inner handler with the wrapped writer, then read the
captured status (substituting 200 for an unobserved 0) and emit the info
record with the elapsed time.  A panic in the inner handler passes through
untouched, so no info record is emitted for it. -/
def NewLoggingMiddleware : Middleware Handler :=
  fun next => fun r conn =>
    let start := conn.clock
    match next r { writer := .wrapped conn.writer 0,
                   logs := conn.logs ++ [debugRecord r],
                   clock := conn.clock } with
    | .error c => .error c
    | .ok conn2 =>
        let statusCode := conn2.writer.capturedStatus
        let statusCode := if statusCode = 0 then 200 else statusCode
        .ok { writer := conn2.writer.unwrap,
              logs := conn2.logs ++ [infoRecord r statusCode (conn2.clock - start)],
              clock := conn2.clock }

/-! ### Instrumented middleware, sample handlers and predicates used by the
properties -/

/-- For composition-order properties, a handler is abstracted to a trace
transformer and an instrumented unit appends its before/after marks around
its inner handler, as in the spec's trace property. -/
def instrUnit (name : String) : Middleware (List String → List String) :=
  fun next => fun t => next (t ++ [name ++ ":before"]) ++ [name ++ ":after"]

def traceHandler : List String → List String :=
  fun t => t ++ ["handler"]

/-- The conventional consumer of the size limiter: read up to `chunk` bytes
in one call; echo them on success, answer 413 Request Entity Too Large on a
body-too-large read error. -/
def echoProg (chunk : Nat) : HandlerProg :=
  .readBody chunk (fun res =>
    match res.2 with
    | some .tooLarge => .writeHeader 413 .done
    | _ => .write res.1 .done)

/-- Handler programs that never read the request body. -/
inductive NoReads : HandlerProg → Prop
  | done : NoReads .done
  | abort : NoReads .abort
  | writeHeader (s : Nat) (k : HandlerProg) : NoReads k → NoReads (.writeHeader s k)
  | write (b : List Nat) (k : HandlerProg) : NoReads k → NoReads (.write b k)
  | setHeader (key value : String) (k : HandlerProg) :
      NoReads k → NoReads (.setHeader key value k)

/-- Handler programs that never set the header `key` themselves (every
branch of every read continuation included). -/
inductive KeepsHeader (key : String) : HandlerProg → Prop
  | done : KeepsHeader key .done
  | abort : KeepsHeader key .abort
  | writeHeader (s : Nat) (k : HandlerProg) :
      KeepsHeader key k → KeepsHeader key (.writeHeader s k)
  | write (b : List Nat) (k : HandlerProg) :
      KeepsHeader key k → KeepsHeader key (.write b k)
  | setHeader (key2 value : String) (k : HandlerProg) :
      key2 ≠ key → KeepsHeader key k → KeepsHeader key (.setHeader key2 value k)
  | readBody (p : Nat) (k : List Nat × Option ReadErr → HandlerProg) :
      (∀ res, KeepsHeader key (k res)) → KeepsHeader key (.readBody p k)

/-- First-match lookup in the header association list. -/
def lookupHeader (hs : List (String × String)) (key : String) : Option String :=
  (hs.find? (fun kv => kv.1 = key)).map (fun kv => kv.2)

/-- Concrete inputs for witnesses and counterexamples. -/
def sampleRec : ResponseRecorder :=
  { wroteHeader := false, status := 0, body := [], headers := [] }

def sampleConn : Conn :=
  { writer := .base sampleRec, logs := [], clock := 0 }

def sampleReq : Request :=
  { method := "GET", path := "/api/users/", body := .raw [] }

/-! ## Helper lemmas -/

lemma createStack_instr_trace (names : List String) (t : List String) :
    CreateStack (names.map instrUnit) traceHandler t =
      t ++ names.map (fun n => n ++ ":before") ++ ["handler"] ++
        names.reverse.map (fun n => n ++ ":after") := by
  induction names generalizing t with
  | nil => simp [CreateStack, traceHandler]
  | cons n ns ih =>
      show instrUnit n (CreateStack (ns.map instrUnit) traceHandler) t = _
      simp only [instrUnit]
      rw [ih]
      simp [List.append_assoc]

lemma serveProg_error_logs (p : HandlerProg) :
    ∀ (body : Body) (conn c : Conn),
      serveProg p body conn = .error c → c.logs = conn.logs := by
  induction p with
  | done => intro body conn c h; simp [serveProg] at h
  | writeHeader s k ih =>
      intro body conn c h
      rw [serveProg] at h
      exact (ih _ _ _ h).trans rfl
  | write b k ih =>
      intro body conn c h
      rw [serveProg] at h
      exact (ih _ _ _ h).trans rfl
  | setHeader key value k ih =>
      intro body conn c h
      rw [serveProg] at h
      exact (ih _ _ _ h).trans rfl
  | readBody p k ih =>
      intro body conn c h
      rw [serveProg] at h
      rcases hb : body.read p with ⟨body', bs, err⟩
      rw [hb] at h
      exact (ih _ _ _ _ h).trans rfl
  | abort =>
      intro body conn c h
      rw [serveProg] at h
      cases h
      rfl

lemma serveProg_noReads {p : HandlerProg} (hp : NoReads p) :
    ∀ (body body2 : Body) (conn : Conn),
      serveProg p body conn =
        (serveProg p body2 conn).map (fun pr => (body, pr.2)) := by
  induction hp with
  | done => intro body body2 conn; simp [serveProg, Except.map]
  | abort => intro body body2 conn; simp [serveProg, Except.map]
  | writeHeader s k hk ih =>
      intro body body2 conn
      rw [serveProg, serveProg]
      exact ih _ _ _
  | write b k hk ih =>
      intro body body2 conn
      rw [serveProg, serveProg]
      exact ih _ _ _
  | setHeader key value k hk ih =>
      intro body body2 conn
      rw [serveProg, serveProg]
      exact ih _ _ _

lemma lookupHeader_setAssoc_same (hs : List (String × String)) (key value : String) :
    lookupHeader (setAssoc hs key value) key = some value := by
  simp [lookupHeader, setAssoc, List.find?_cons]

lemma find?_and_ne (hs : List (String × String)) (key key2 : String)
    (h : key2 ≠ key) :
    (hs.find? fun a => !decide (a.1 = key2) && decide (a.1 = key)) =
      hs.find? fun kv => decide (kv.1 = key) := by
  induction hs with
  | nil => simp
  | cons a l ih =>
      by_cases hk : a.1 = key
      · have hne2 : ¬ a.1 = key2 := by rw [hk]; exact fun he => h he.symm
        have hkk : ¬ key = key2 := fun he => h he.symm
        simp [List.find?_cons, hk, hne2, hkk]
      · simp [List.find?_cons, hk, ih]

lemma lookupHeader_setAssoc_other (hs : List (String × String))
    (key key2 value : String) (h : key2 ≠ key) :
    lookupHeader (setAssoc hs key2 value) key = lookupHeader hs key := by
  have h1 : ¬ (key2 = key) := h
  simp [lookupHeader, setAssoc, List.find?_cons, h1]
  rw [find?_and_ne hs key key2 h]

lemma recorder_writeHeader (w : RespWriter) (s : Nat) :
    (w.writeHeader s).recorder.headers = w.recorder.headers := by
  induction w with
  | base rec =>
      simp [RespWriter.writeHeader, RespWriter.recorder, ResponseRecorder.writeHeader]
      split <;> rfl
  | wrapped inner sc ih =>
      simp [RespWriter.writeHeader, RespWriter.recorder, ih]

lemma recorder_write (w : RespWriter) (b : List Nat) :
    (w.write b).recorder.headers = w.recorder.headers := by
  induction w with
  | base rec =>
      simp [RespWriter.write, RespWriter.recorder, ResponseRecorder.write]
      split <;> rfl
  | wrapped inner sc ih =>
      simp [RespWriter.write, RespWriter.recorder, ih]

lemma recorder_setHeader (w : RespWriter) (key value : String) :
    (w.setHeader key value).recorder.headers =
      setAssoc w.recorder.headers key value := by
  induction w with
  | base rec => rfl
  | wrapped inner sc ih =>
      simp [RespWriter.setHeader, RespWriter.recorder, ih]

lemma serveProg_keepsHeader {key : String} {p : HandlerProg}
    (hp : KeepsHeader key p) :
    ∀ (body : Body) (conn : Conn) (b' : Body) (c' : Conn),
      serveProg p body conn = .ok (b', c') →
      lookupHeader c'.writer.recorder.headers key =
        lookupHeader conn.writer.recorder.headers key := by
  induction hp with
  | done =>
      intro body conn b' c' h
      rw [serveProg] at h
      cases h
      rfl
  | abort =>
      intro body conn b' c' h
      rw [serveProg] at h
      cases h
  | writeHeader s k hk ih =>
      intro body conn b' c' h
      rw [serveProg] at h
      rw [ih _ _ _ _ h]
      show lookupHeader (conn.writer.writeHeader s).recorder.headers key = _
      rw [recorder_writeHeader]
  | write b k hk ih =>
      intro body conn b' c' h
      rw [serveProg] at h
      rw [ih _ _ _ _ h]
      show lookupHeader (conn.writer.write b).recorder.headers key = _
      rw [recorder_write]
  | setHeader key2 value k hne hk ih =>
      intro body conn b' c' h
      rw [serveProg] at h
      rw [ih _ _ _ _ h]
      show lookupHeader (conn.writer.setHeader key2 value).recorder.headers key = _
      rw [recorder_setHeader, lookupHeader_setAssoc_other _ _ _ _ hne]
  | readBody p k hk ih =>
      intro body conn b' c' h
      rw [serveProg] at h
      rcases hb : body.read p with ⟨body2, bs, err⟩
      rw [hb] at h
      exact (ih _ _ _ _ _ h).trans rfl

lemma read_raw_all (L : List Nat) (p : Nat) (hp : ¬ p = 0) (hL : ¬ L = [])
    (hlen : L.length ≤ p) : Body.read (.raw L) p = (.raw [], L, none) := by
  rw [Body.read]
  simp [hp, List.isEmpty_iff, hL, List.drop_eq_nil_of_le hlen,
    List.take_of_length_le hlen]

lemma read_limited_raw_exact (N b : Nat) (hN : 0 < N) :
    Body.read (.limited (.raw (List.replicate N b)) (N : Int) none) (N + 2) =
      (.limited (.raw []) 0 none, List.replicate N b, none) := by
  rw [Body.read]
  have h2 : ¬ (N + 2 = 0) := by omega
  have htrim : ((N + 2 : Nat) : Int) - 1 > (N : Int) := by push_cast; omega
  have hto : ((N : Int) + 1).toNat = N + 1 := by omega
  have hraw : Body.read (.raw (List.replicate N b)) (N + 1) =
      (.raw [], List.replicate N b, none) :=
    read_raw_all _ _ (by omega)
      (by simp [List.replicate_eq_nil_iff]; omega)
      (by rw [List.length_replicate]; omega)
  simp only [h2, if_false, htrim, if_true, hto, hraw, if_pos]
  simp [List.length_replicate]

lemma read_limited_raw_over (N b : Nat) (hN : 0 < N) :
    Body.read (.limited (.raw (List.replicate (N + 1) b)) (N : Int) none) (N + 2) =
      (.limited (.raw []) 0 (some .tooLarge), List.replicate N b, some .tooLarge) := by
  rw [Body.read]
  have h2 : ¬ (N + 2 = 0) := by omega
  have htrim : ((N + 2 : Nat) : Int) - 1 > (N : Int) := by push_cast; omega
  have hto : ((N : Int) + 1).toNat = N + 1 := by omega
  have hraw : Body.read (.raw (List.replicate (N + 1) b)) (N + 1) =
      (.raw [], List.replicate (N + 1) b, none) :=
    read_raw_all _ _ (by omega)
      (by simp [List.replicate_eq_nil_iff])
      (by rw [List.length_replicate])
  have hover : ¬ (((List.replicate (N + 1) b).length : Int) ≤ (N : Int)) := by
    rw [List.length_replicate]; push_cast; omega
  have htN : ((N : Int)).toNat = N := by omega
  simp only [h2, if_false, htrim, if_true, hto, hraw, hover, if_neg, htN]
  simp [List.take_replicate]

lemma clock_two_ticks (n : Nat) : n + 1 + 1 - n = 2 := by omega

/-! ## Claim theorems -/

/-- C1: For every non-empty unit sequence the composed stack nests the first
unit outermost — `CreateStack (u :: xs) h = u (CreateStack xs h)` — a nested
stack used as one element flattens into the surrounding sequence, and on
instrumented units the composed stack runs each before-mark in order, the
terminal handler exactly once, and each after-mark in reverse order. -/
theorem createStack_nesting_and_trace :
    (∀ (H : Type) (u : Middleware H) (xs : List (Middleware H)) (h : H),
        CreateStack (u :: xs) h = u (CreateStack xs h)) ∧
    (∀ (H : Type) (as bs cs : List (Middleware H)) (h : H),
        CreateStack (as ++ CreateStack bs :: cs) h =
          CreateStack (as ++ (bs ++ cs)) h) ∧
    (∀ (names t : List String),
        CreateStack (names.map instrUnit) traceHandler t =
          t ++ names.map (fun n => n ++ ":before") ++ ["handler"] ++
            names.reverse.map (fun n => n ++ ":after")) := by
  refine ⟨fun _ _ _ _ => rfl, fun H as bs cs h => ?_, createStack_instr_trace⟩
  simp [CreateStack, List.foldr_append]

/-- C6: `CreateStack` of zero units is the identity middleware: applied to
any handler it returns that handler unchanged. -/
theorem createStack_empty_identity :
    ∀ (H : Type) (h : H), CreateStack ([] : List (Middleware H)) h = h :=
  fun _ h => rfl

/-- C5: the size limiter constructed with `maxBytes = 0` behaves identically,
on every inner handler, request and connection, to the one constructed with
`maxBytes = 1048576`. -/
theorem maxBytesReader_zero_defaults :
    ∀ (next : Handler) (r : Request) (conn : Conn),
      NewMaxBytesReader 0 next r conn = NewMaxBytesReader 1048576 next r conn := by
  intro next r conn
  norm_num [NewMaxBytesReader]

/-- C8: enforcement is lazy — for an inner handler that never reads the
body, the run through the size limiter is identical to the run without it,
whatever the body and the configured limit, so no body-too-large error
arises. -/
theorem maxBytesReader_lazy_no_reads (maxBytes : Int) (p : HandlerProg)
    (hp : NoReads p) (method path : String) (body : Body) (conn : Conn) :
    NewMaxBytesReader maxBytes (progHandler fun _ => p)
        { method := method, path := path, body := body } conn =
      progHandler (fun _ => p)
        { method := method, path := path, body := body } conn := by
  simp only [NewMaxBytesReader, progHandler]
  rw [serveProg_noReads hp _ body]
  cases hx : serveProg p body conn <;> simp [hx, Except.map]

/-- Witness for C8 at a concrete no-reads handler and a 10-byte body against
a limit of 2. -/
theorem maxBytesReader_lazy_no_reads_witness :
    NewMaxBytesReader 2 (progHandler fun _ => .write [1] .done)
        { method := "POST", path := "/u", body := .raw (List.replicate 10 7) }
        sampleConn =
      progHandler (fun _ => .write [1] .done)
        { method := "POST", path := "/u", body := .raw (List.replicate 10 7) }
        sampleConn :=
  maxBytesReader_lazy_no_reads 2 (.write [1] .done)
    (NoReads.write [1] .done NoReads.done) "POST" "/u" (.raw (List.replicate 10 7))
    sampleConn

/-- C4: the boundary is inclusive: against limit `N > 0`, a handler that
reads the body in one oversized read call obtains all `N` bytes of an
`N`-byte body and echoes them with no error, while on an `(N+1)`-byte body
the read past the ceiling returns a body-too-large error value to the
handler — the run still terminates normally (`Except.ok`, no panic), the
handler mapping the error to a 413 response. -/
theorem maxBytesReader_inclusive_boundary (N b : Nat) (hN : 0 < N)
    (method path : String) (conn : Conn) :
    NewMaxBytesReader (N : Int) (progHandler fun _ => echoProg (N + 2))
        { method := method, path := path, body := .raw (List.replicate N b) }
        conn =
      .ok { writer := conn.writer.write (List.replicate N b),
            logs := conn.logs, clock := conn.clock + 2 } ∧
    NewMaxBytesReader (N : Int) (progHandler fun _ => echoProg (N + 2))
        { method := method, path := path,
          body := .raw (List.replicate (N + 1) b) } conn =
      .ok { writer := conn.writer.writeHeader 413,
            logs := conn.logs, clock := conn.clock + 2 } := by
  have hz : ¬ ((N : Int) = 0) := by omega
  have hneg : ¬ ((N : Int) < 0) := by omega
  constructor
  · simp only [NewMaxBytesReader, MaxBytesReader, progHandler, echoProg,
      if_neg hz, if_neg hneg]
    rw [serveProg, read_limited_raw_exact N b hN]
    simp [serveProg, Except.map]
  · simp only [NewMaxBytesReader, MaxBytesReader, progHandler, echoProg,
      if_neg hz, if_neg hneg]
    rw [serveProg, read_limited_raw_over N b hN]
    simp [serveProg, Except.map]

/-- Witness for C4 at `N = 3`: a 3-byte body is echoed in full, a 4-byte
body yields the 413 answer. -/
theorem maxBytesReader_inclusive_boundary_witness :
    NewMaxBytesReader ((3 : Nat) : Int) (progHandler fun _ => echoProg (3 + 2))
        { method := "POST", path := "/u", body := .raw (List.replicate 3 7) }
        sampleConn =
      .ok { writer := sampleConn.writer.write (List.replicate 3 7),
            logs := sampleConn.logs, clock := sampleConn.clock + 2 } ∧
    NewMaxBytesReader ((3 : Nat) : Int) (progHandler fun _ => echoProg (3 + 2))
        { method := "POST", path := "/u",
          body := .raw (List.replicate (3 + 1) 7) } sampleConn =
      .ok { writer := sampleConn.writer.writeHeader 413,
            logs := sampleConn.logs, clock := sampleConn.clock + 2 } :=
  maxBytesReader_inclusive_boundary 3 7 (by decide) "POST" "/u" sampleConn

/-- C2: through the logging middleware, a handler that writes a body without
setting a status is logged with status 200; one that sets 404 before writing
is logged with 404; and a handler that writes nothing at all still gets the
info-level after-record carrying method, path, observed status and
duration. -/
theorem loggingMiddleware_status_observation :
    ∀ (r : Request) (conn : Conn) (bs : List Nat),
      NewLoggingMiddleware (progHandler fun _ => .write bs .done) r conn =
        .ok { writer := conn.writer.write bs,
              logs := conn.logs ++ [debugRecord r, infoRecord r 200 1],
              clock := conn.clock + 1 } ∧
      NewLoggingMiddleware
          (progHandler fun _ => .writeHeader 404 (.write bs .done)) r conn =
        .ok { writer := (conn.writer.writeHeader 404).write bs,
              logs := conn.logs ++ [debugRecord r, infoRecord r 404 2],
              clock := conn.clock + 2 } ∧
      NewLoggingMiddleware (progHandler fun _ => .done) r conn =
        .ok { writer := conn.writer,
              logs := conn.logs ++ [debugRecord r, infoRecord r 200 0],
              clock := conn.clock } := by
  intro r conn bs
  refine ⟨?_, ?_, ?_⟩ <;>
    simp [NewLoggingMiddleware, progHandler, serveProg, Except.map,
      RespWriter.write, RespWriter.writeHeader, RespWriter.capturedStatus,
      RespWriter.unwrap, clock_two_ticks]

/-- C10: when the inner handler neither sets a status nor writes, the
captured status is still 0 and the middleware itself substitutes 200 in the
after-record, while the underlying transport writer is returned byte-for-byte
untouched (its own status/default is never consulted). -/
theorem loggingMiddleware_unobserved_status_200 :
    ∀ (r : Request) (rec : ResponseRecorder) (logs : List LogRecord) (clock : Nat),
      NewLoggingMiddleware (progHandler fun _ => .done) r
          { writer := .base rec, logs := logs, clock := clock } =
        .ok { writer := .base rec,
              logs := logs ++ [debugRecord r, infoRecord r 200 0],
              clock := clock } := by
  intro r rec logs clock
  simp [NewLoggingMiddleware, progHandler, serveProg, Except.map,
    RespWriter.capturedStatus, RespWriter.unwrap]

/-- C3 counterexample: a handler that sets status 404 and then 500 is logged
with 500 — the later explicit status, not the first transition 404 (which is
what actually went on the wire). -/
theorem wrappedWriter_cex_first_status :
    NewLoggingMiddleware
        (progHandler fun _ => .writeHeader 404 (.writeHeader 500 .done))
        sampleReq sampleConn =
      .ok { writer := .base
              { wroteHeader := true, status := 404, body := [], headers := [] },
            logs := [debugRecord sampleReq, infoRecord sampleReq 500 2],
            clock := 2 } ∧
    (500 : Nat) ≠ 404 := by
  exact ⟨rfl, by decide⟩

/-- C3 amended: the wrapping writer records the LAST explicitly set status
code — a later `WriteHeader` overwrites an earlier one and also overwrites
the implicit 200 of a preceding body write — while a body write after an
explicit `WriteHeader` never overwrites the recorded status. -/
theorem wrappedWriter_records_last_status (a b : Nat) (hb : b ≠ 0)
    (bs : List Nat) (r : Request) (conn : Conn) :
    NewLoggingMiddleware
        (progHandler fun _ => .writeHeader a (.writeHeader b .done)) r conn =
      .ok { writer := (conn.writer.writeHeader a).writeHeader b,
            logs := conn.logs ++ [debugRecord r, infoRecord r b 2],
            clock := conn.clock + 2 } ∧
    NewLoggingMiddleware
        (progHandler fun _ => .write bs (.writeHeader b .done)) r conn =
      .ok { writer := (conn.writer.write bs).writeHeader b,
            logs := conn.logs ++ [debugRecord r, infoRecord r b 2],
            clock := conn.clock + 2 } ∧
    NewLoggingMiddleware
        (progHandler fun _ => .writeHeader b (.write bs .done)) r conn =
      .ok { writer := (conn.writer.writeHeader b).write bs,
            logs := conn.logs ++ [debugRecord r, infoRecord r b 2],
            clock := conn.clock + 2 } := by
  refine ⟨?_, ?_, ?_⟩ <;>
    simp [NewLoggingMiddleware, progHandler, serveProg, Except.map,
      RespWriter.write, RespWriter.writeHeader, RespWriter.capturedStatus,
      RespWriter.unwrap, hb, clock_two_ticks]

/-- Witness for the amended C3 at `a = 404`, `b = 500`. -/
theorem wrappedWriter_records_last_status_witness :
    NewLoggingMiddleware
        (progHandler fun _ => .writeHeader 404 (.writeHeader 500 .done))
        sampleReq sampleConn =
      .ok { writer := ((RespWriter.base sampleRec).writeHeader 404).writeHeader 500,
            logs := sampleConn.logs ++
              [debugRecord sampleReq, infoRecord sampleReq 500 2],
            clock := sampleConn.clock + 2 } :=
  (wrappedWriter_records_last_status 404 500 (by decide) [1] sampleReq
    sampleConn).1

/-- C7: a panic (`abort`) raised while the inner handler runs under the
logging middleware propagates unmodified — the middleware returns exactly
the handler's escaping state — and the log stream at that point holds only
the before-record: no info-level after-record was emitted. -/
theorem loggingMiddleware_abort_transparent (f : Request → HandlerProg)
    (r : Request) (conn c : Conn)
    (h : serveProg (f r) r.body
        { writer := .wrapped conn.writer 0,
          logs := conn.logs ++ [debugRecord r],
          clock := conn.clock } = .error c) :
    NewLoggingMiddleware (progHandler f) r conn = .error c ∧
    c.logs = conn.logs ++ [debugRecord r] ∧
    ∀ rec ∈ c.logs, rec.level = Level.info → rec ∈ conn.logs := by
  have hlogs : c.logs = conn.logs ++ [debugRecord r] :=
    (serveProg_error_logs _ _ _ _ h).trans rfl
  refine ⟨?_, hlogs, ?_⟩
  · simp only [NewLoggingMiddleware, progHandler]
    rw [h]
    rfl
  · intro rec hmem hinfo
    rw [hlogs] at hmem
    rcases List.mem_append.mp hmem with hin | hdbg
    · exact hin
    · simp only [List.mem_singleton] at hdbg
      rw [hdbg] at hinfo
      simp [debugRecord] at hinfo

/-- Witness for C7: an immediately aborting handler. -/
theorem loggingMiddleware_abort_transparent_witness :
    NewLoggingMiddleware (progHandler fun _ => HandlerProg.abort)
        sampleReq sampleConn =
      .error { writer := .wrapped (.base sampleRec) 0,
               logs := [debugRecord sampleReq], clock := 0 } :=
  (loggingMiddleware_abort_transparent (fun _ => .abort) sampleReq sampleConn
    _ rfl).1

/-- C9: the header middleware sets `Content-Type` to exactly the configured
string — the empty string included — before delegating, with no error
possible, so after any handler that does not itself reset that header the
response carries exactly the configured value; and `NewSetContentTypeJSON`
is definitionally `NewSetContentType "application/json"`. -/
theorem setContentType_exact_header :
    (∀ (contentType : String) (f : Request → HandlerProg) (r : Request)
        (conn c' : Conn),
      KeepsHeader "Content-Type" (f r) →
      NewSetContentType contentType (progHandler f) r conn = .ok c' →
      lookupHeader c'.writer.recorder.headers "Content-Type" =
        some contentType) ∧
    NewSetContentTypeJSON = NewSetContentType "application/json" := by
  refine ⟨?_, rfl⟩
  intro contentType f r conn c' hk h
  simp only [NewSetContentType, progHandler] at h
  rcases hs : serveProg (f r) r.body
      { conn with writer := conn.writer.setHeader "Content-Type" contentType }
    with c2 | pr
  · rw [hs] at h
    simp [Except.map] at h
  · rw [hs] at h
    simp only [Except.map] at h
    cases h
    have h2 := serveProg_keepsHeader hk r.body _ pr.1 pr.2 (by rw [hs])
    rw [h2]
    show lookupHeader
        (conn.writer.setHeader "Content-Type" contentType).recorder.headers
        "Content-Type" = _
    rw [recorder_setHeader, lookupHeader_setAssoc_same]

/-- Witness for C9 with the empty-string content type and a body-writing
handler. -/
theorem setContentType_exact_header_witness :
    lookupHeader
      (Conn.mk
        (.base
          { wroteHeader := true, status := 200, body := [1],
            headers := [("Content-Type", "")] })
        [] 1).writer.recorder.headers "Content-Type" = some "" :=
  setContentType_exact_header.1 "" (fun _ => .write [1] .done) sampleReq
    sampleConn _
    (KeepsHeader.write [1] .done KeepsHeader.done) rfl
